import Mathlib

/-!
Verification of the WebRTPay bootstrap-token codec, connection state machine
and message layer against their natural-language specification.

Shallow embedding conventions:
* JavaScript strings that travel through `TextEncoder`/`TextDecoder` are
  modelled as their UTF-8 byte sequences (`List Nat`); encoding/decoding a
  well-formed string is then the identity on its byte list.
* Machine arithmetic follows the JS typed-array semantics explicitly:
  `DataView.setUint16` stores `n % 2 ^ 16`, `Uint8Array` element writes store
  `n % 2 ^ 8`, and so on.
* A JavaScript array offset that has become `NaN` (which happens in
  `decompressToken` after an out-of-range single-byte read, because
  `undefined` propagates through `+=`) is modelled as `Option.none`;
  `x.slice(a, b)` and `DataView` reads involving `NaN` follow the ECMAScript
  coercions (`ToIntegerOrInfinity NaN = 0`, `ToIndex NaN = 0`).
* Thrown exceptions are modelled with `Except`; `decompressToken` wraps every
  internal throw into one `BOOTSTRAP_PARSE_FAILED` error, modelled as
  `Except.error ()`.
-/

namespace WebRTPay

/-- One ICE candidate descriptor as it appears in a bootstrap token
(`RTCIceCandidateInit` in the source); the two strings are modelled as their
UTF-8 byte sequences. -/
structure IceCandidateInit where
  candidate : List Nat
  sdpMid : List Nat
  sdpMLineIndex : Nat
deriving DecidableEq, Repr

/-- A session description (`RTCSessionDescriptionInit`): a type tag and the
SDP text (modelled as UTF-8 bytes). -/
structure SessionDescription where
  type : String
  sdp : List Nat
deriving DecidableEq, Repr

/-- Bootstrap-token metadata. `trickleIce := false` also models an absent
flag (the source reads it with `token.metadata?.trickleIce`, so `undefined`
and `false` are indistinguishable). -/
structure TokenMetadata where
  timestamp : Nat
  connectionId : List Nat
  trickleIce : Bool
deriving DecidableEq, Repr

/-- The bootstrap token (`BootstrapToken` in `core/types.ts`). -/
structure BootstrapToken where
  offer : SessionDescription
  iceCandidates : List IceCandidateInit
  metadata : TokenMetadata
deriving DecidableEq, Repr

/-- Big-endian bytes of `DataView.setUint16`: the stored value is
`n % 2 ^ 16`, split into two bytes. -/
def be16 (n : Nat) : List Nat :=
  [n / 256 % 256, n % 256]

/-- Big-endian bytes of `DataView.setUint32`: the stored value is
`n % 2 ^ 32`, split into four bytes. -/
def be32 (n : Nat) : List Nat :=
  [n / 2 ^ 24 % 256, n / 2 ^ 16 % 256, n / 256 % 256, n % 256]

/-- The 8 timestamp bytes written by `compressToken`:
`setUint32(0, Math.floor(ts / 0x100000000))` then `setUint32(4, ts >>> 0)`. -/
def be64 (n : Nat) : List Nat :=
  be32 (n / 2 ^ 32) ++ be32 n

/-- Wire bytes of one ICE candidate, as written by `compressToken`:
2-byte candidate length (wrapped mod 2^16) + candidate bytes, 1-byte sdpMid
length (wrapped mod 2^8) + sdpMid bytes, 2-byte sdpMLineIndex (wrapped). -/
def encCandidate (c : IceCandidateInit) : List Nat :=
  be16 c.candidate.length ++ c.candidate
    ++ [c.sdpMid.length % 256] ++ c.sdpMid
    ++ be16 c.sdpMLineIndex

/-- `QRBootstrap.compressToken`, at the byte level (the final
`btoa`/base64 wrapping is a bijection on byte strings and is elided).
`now` models `Date.now()`, used when `metadata.timestamp` is falsy (0).
The source performs NO length validation anywhere: every length prefix is
written modulo its width and the full field bytes are emitted. -/
def compressToken (now : Nat) (t : BootstrapToken) : List Nat :=
  [1, if t.metadata.trickleIce then 1 else 0]
    ++ be64 (if t.metadata.timestamp = 0 then now else t.metadata.timestamp)
    ++ [t.metadata.connectionId.length % 256] ++ t.metadata.connectionId
    ++ be16 t.offer.sdp.length ++ t.offer.sdp
    ++ [t.iceCandidates.length % 256]
    ++ (t.iceCandidates.map encCandidate).flatten

/-- A JS byte-array offset: `some n` for a real integer offset, `none` for
`NaN` (produced when `undefined` from an out-of-range read flows into
`offset += ...`). -/
abbrev JSOffset := Option Nat

/-- `binary[off]` (single-byte indexed read): out-of-range or `NaN` index
gives `undefined`, modelled as `none`. -/
def idxAt (bs : List Nat) : JSOffset → Option Nat
  | some n => (bs.drop n).head?
  | none => none

/-- `view.getUint16(off, false)`: throws `RangeError` unless two bytes remain
at the coerced index (`ToIndex NaN = 0`). -/
def getU16 (bs : List Nat) : JSOffset → Except Unit Nat
  | some n =>
    match bs.drop n with
    | b0 :: b1 :: _ => .ok (256 * b0 + b1)
    | _ => .error ()
  | none =>
    match bs with
    | b0 :: b1 :: _ => .ok (256 * b0 + b1)
    | _ => .error ()

/-- `view.getUint32(n, false)` at a real offset (the source only uses it at
the fixed offsets 2 and 6). -/
def getU32 (bs : List Nat) (n : Nat) : Except Unit Nat :=
  match bs.drop n with
  | b0 :: b1 :: b2 :: b3 :: _ => .ok (2 ^ 24 * b0 + 2 ^ 16 * b1 + 256 * b2 + b3)
  | _ => .error ()

/-- `binary.slice(off, off + len)`: ECMAScript `slice` clamps both ends to
the array bounds and coerces `NaN` to 0, so a `NaN` start or length yields
an empty slice. -/
def sliceAt (bs : List Nat) : JSOffset → Option Nat → List Nat
  | some a, some l => (bs.drop a).take l
  | _, _ => []

/-- `off + k` on JS numbers: any `NaN` operand gives `NaN`. -/
def addOff : JSOffset → JSOffset → JSOffset
  | some a, some b => some (a + b)
  | _, _ => none

/-- The per-candidate read loop of `decompressToken`
(`for (let i = 0; i < candidatesCount; i++) ...`); reproduces the exact
read/advance sequence of the source, including the `NaN`-offset behaviour. -/
def decodeCands (bs : List Nat) : Nat → JSOffset → Except Unit (List IceCandidateInit)
  | 0, _ => .ok []
  | n + 1, off => do
    let candLen ← getU16 bs off
    let off1 := addOff off (some 2)
    let cand := sliceAt bs off1 (some candLen)
    let off2 := addOff off1 (some candLen)
    let midLen := idxAt bs off2
    let off3 := addOff off2 (some 1)
    let sdpMid := sliceAt bs off3 midLen
    let off4 := addOff off3 midLen
    let mline ← getU16 bs off4
    let off5 := addOff off4 (some 2)
    let rest ← decodeCands bs n off5
    pure ({ candidate := cand, sdpMid := sdpMid, sdpMLineIndex := mline } :: rest)

/-- `QRBootstrap.decompressToken`, at the byte level (after base64 decode;
the legacy JSON fallback only triggers when base64 decoding itself fails and
is outside this byte-level model).  Faithful points worth noting:
* the version check compares `binary[0]` (possibly `undefined`) with `0x01`;
* `binary.slice` never throws, so an over-long declared length is clamped;
* only the `DataView` reads (`getUint16`/`getUint32`) can throw;
* an out-of-range `candidatesCount` read gives `undefined`, and
  `i < undefined` is false, so the loop body never runs;
* every throw is caught and rethrown as one `BOOTSTRAP_PARSE_FAILED` error,
  modelled as `Except.error ()`. -/
def decompressToken (bs : List Nat) : Except Unit BootstrapToken :=
  if (bs.drop 0).head? ≠ some 1 then .error ()
  else do
    let flags := ((bs.drop 1).head?).getD 0
    let trickleIce := flags % 2 = 1
    let hi ← getU32 bs 2
    let lo ← getU32 bs 6
    let timestamp := hi * 2 ^ 32 + lo
    let connIdLen := idxAt bs (some 10)
    let connectionId := sliceAt bs (some 11) connIdLen
    let off1 := addOff (some 11) connIdLen
    let sdpLen ← getU16 bs off1
    let off2 := addOff off1 (some 2)
    let sdp := sliceAt bs off2 (some sdpLen)
    let off3 := addOff off2 (some sdpLen)
    let candCount := idxAt bs off3
    let off4 := addOff off3 (some 1)
    let iceCandidates ← decodeCands bs (candCount.getD 0) off4
    pure
      { offer := { type := "offer", sdp := sdp }
        iceCandidates := iceCandidates
        metadata :=
          { timestamp := timestamp
            connectionId := connectionId
            trickleIce := decide trickleIce } }

/-! Connection state machine (`core/WebRTCConnection.ts`).  The external
peer-transport engine (`RTCPeerConnection`) is modelled by the log of calls
the connection code makes into it; the transport is modelled as accepting
every call (errors it might raise are caught by the source, logged, and
emitted as error events without touching the state machine fields). -/

/-- Connection lifecycle states (the `ConnectionState` enum). -/
inductive ConnectionState where
  | idle
  | creatingOffer
  | awaitingAnswer
  | connecting
  | connected
  | disconnected
  | failed
  | closed
deriving DecidableEq, Repr

/-- Handshake roles (the `ConnectionRole` enum; offerer = initiator,
answerer = responder). -/
inductive ConnectionRole where
  | offerer
  | answerer
deriving DecidableEq, Repr

/-- The subset of the `ErrorType` enum raised by the modelled operations. -/
inductive ErrorType where
  | connectionFailed
  | messageSendFailed
  | bootstrapParseFailed
deriving DecidableEq, Repr

/-- A session description at the connection layer (payloads kept as plain
strings; they are opaque to this layer). -/
structure SessionDesc where
  type : String
  sdp : String
deriving DecidableEq, Repr

/-- An ICE candidate descriptor at the connection layer. -/
structure CandidateDesc where
  candidate : String
  sdpMid : String
  sdpMLineIndex : Nat
deriving DecidableEq, Repr

/-- Observable effect log of the owned `RTCPeerConnection`: the descriptions
passed to `setRemoteDescription` and the candidates passed to
`addIceCandidate`, in call order. -/
structure PeerConn where
  remoteDescriptions : List SessionDesc
  addedCandidates : List CandidateDesc
deriving DecidableEq, Repr

/-- The mutable fields of `WebRTCConnection` touched by the verified
operations. `eventListeners` abstracts the listener map to a list of
attached listener identifiers; `dataChannel` is `some b` when a channel
object exists (`b` = currently open). -/
structure WebRTCConn where
  state : ConnectionState
  role : Option ConnectionRole
  peerConnection : Option PeerConn
  dataChannel : Option Bool
  eventListeners : List Nat
  iceCandidatesBuffer : List CandidateDesc
  pendingIceCandidates : List CandidateDesc
  trickleIceEnabled : Bool
deriving DecidableEq, Repr

/-- One observed `STATE_CHANGE` emission: the reported new state and the
number of listeners attached at emission time. -/
structure EmittedEvent where
  newState : ConnectionState
  listenersNotified : Nat
deriving DecidableEq, Repr

/-- `WebRTCConnection.setState`: updates the field and emits a state-change
event only when the state actually changes. -/
def setState (s : WebRTCConn) (ns : ConnectionState) : WebRTCConn × List EmittedEvent :=
  if s.state ≠ ns then
    ({ s with state := ns },
      [{ newState := ns, listenersNotified := s.eventListeners.length }])
  else (s, [])

/-- An incoming signaling envelope (a data-channel JSON frame whose
`__signaling` field is set). The source switches on `message.type` and
silently ignores unknown tags; an ice-candidate envelope may lack its
`candidate` field (the source tests `message.candidate` for truthiness). -/
inductive SignalingMessage where
  | answer (desc : SessionDesc)
  | iceCandidate (cand : Option CandidateDesc)
  | unknown
deriving DecidableEq, Repr

/-- `WebRTCConnection.handleSignalingMessage`. Note what the source does
NOT do: there is no check of `this.state` or `this.role`; an answer
envelope always results in a `setRemoteDescription` call whenever a peer
connection exists (optional chaining `this.peerConnection?.`), and any
transport error is caught, logged, and emitted as an error event without
changing any session field. -/
def handleSignalingMessage (s : WebRTCConn) (m : SignalingMessage) : WebRTCConn :=
  match m with
  | .answer d =>
    match s.peerConnection with
    | some pc =>
      { s with peerConnection := some { pc with remoteDescriptions := pc.remoteDescriptions ++ [d] } }
    | none => s
  | .iceCandidate c =>
    match c, s.peerConnection with
    | some cand, some pc =>
      { s with peerConnection := some { pc with addedCandidates := pc.addedCandidates ++ [cand] } }
    | _, _ => s
  | .unknown => s

/-- `WebRTCConnection.receiveAnswer`: guards only the role and the presence
of a peer connection (both failures throw `CONNECTION_FAILED` before any
mutation); the current state is never inspected. On the success path it
applies the remote answer, adds the supplied candidates, then performs
`setState(CONNECTING)`. -/
def receiveAnswer (s : WebRTCConn) (answer : SessionDesc)
    (iceCandidates : List CandidateDesc) :
    Except ErrorType (WebRTCConn × List EmittedEvent) :=
  if s.role ≠ some ConnectionRole.offerer then .error .connectionFailed
  else
    match s.peerConnection with
    | none => .error .connectionFailed
    | some pc =>
      let pc1 := { pc with
        remoteDescriptions := pc.remoteDescriptions ++ [answer]
        addedCandidates := pc.addedCandidates ++ iceCandidates }
      .ok (setState { s with peerConnection := some pc1 } ConnectionState.connecting)

/-- `WebRTCConnection.close`, step for step: close and null the data
channel, close and null the peer connection, `setState(CLOSED)` (which
emits to the listeners still attached at that point), clear the listener
map, reset `iceCandidatesBuffer`. The source never touches
`pendingIceCandidates`. -/
def close (s : WebRTCConn) : WebRTCConn × List EmittedEvent :=
  let s1 := { s with dataChannel := none }
  let s2 := { s1 with peerConnection := none }
  let p := setState s2 ConnectionState.closed
  let s4 := { p.1 with eventListeners := [] }
  let s5 := { s4 with iceCandidatesBuffer := [] }
  (s5, p.2)

/-- Character-level `String.prototype.startsWith`. -/
def strStartsWith : List Char → List Char → Bool
  | _, [] => true
  | [], _ :: _ => false
  | c :: cs, p :: ps => c == p && strStartsWith cs ps

/-- `sdp.split(newline)` on the character list; as in JS, splitting the
empty string yields one empty line. -/
def splitNl : List Char → List (List Char)
  | [] => [[]]
  | c :: cs =>
    if c == '\n' then [] :: splitNl cs
    else
      match splitNl cs with
      | [] => [[c]]
      | l :: ls => (c :: l) :: ls

/-- `lines.join(newline)`. -/
def joinNl : List (List Char) → List Char
  | [] => []
  | [l] => l
  | l :: ls => l ++ '\n' :: joinNl ls

/-- `WebRTCConnection.filterSDP`: split into lines, drop lines starting
with `a=max-message-size:` or `a=sctp-port:`, join back. The source applies
two successive filters, which is the same as filtering once with the
conjunction. The split/join pair is modelled structurally on the character
list of the string. -/
def filterSDP (sdp : String) : String :=
  String.mk (joinNl ((splitNl sdp.data).filter (fun line =>
    !strStartsWith line "a=max-message-size:".data &&
      !strStartsWith line "a=sctp-port:".data)))

/-- The token assembled by `WebRTCConnection.createBootstrapToken`
(`trickleIce := false` also models the non-trickle branch, whose metadata
object simply lacks the flag). -/
structure SMToken where
  offer : SessionDesc
  iceCandidates : List CandidateDesc
  timestamp : Nat
  connectionId : String
  trickleIce : Bool
deriving DecidableEq, Repr

/-- `WebRTCConnection.createBootstrapToken`, parameterised by the offer the
external transport produced, the candidate buffer gathered while waiting
(used by the non-trickle branch only), `Date.now()` and the connection id.
Both branches perform `setState(AWAITING_ANSWER)` before returning, which
the second component records. -/
def createBootstrapToken (useTrickleICE : Bool) (offer : SessionDesc)
    (gathered : List CandidateDesc) (now : Nat) (connId : String) :
    SMToken × ConnectionState :=
  if useTrickleICE then
    ({ offer := { type := offer.type, sdp := filterSDP offer.sdp }
       iceCandidates := []
       timestamp := now
       connectionId := connId
       trickleIce := true },
      ConnectionState.awaitingAnswer)
  else
    ({ offer := { type := offer.type, sdp := filterSDP offer.sdp }
       iceCandidates := gathered
       timestamp := now
       connectionId := connId
       trickleIce := false },
      ConnectionState.awaitingAnswer)

/-! Message layer (`protocol/MessageProtocol.ts`). -/

/-- A JSON value (the untyped payload). Prototype-inherited properties of
objects and arrays are not modelled: the `field in payload` membership test
is modelled on own properties (object keys; array canonical indices and
`length`). -/
inductive JSValue where
  | str (s : String)
  | num (n : Int)
  | bool (b : Bool)
  | null
  | obj (fields : List (String × JSValue))
  | arr (elems : List JSValue)

/-- `typeof payload` equals the string `object` (true for objects, arrays
and `null`). -/
def typeofIsObject : JSValue → Bool
  | .obj _ => true
  | .arr _ => true
  | .null => true
  | _ => false

/-- `payload === null`. -/
def isNull : JSValue → Bool
  | .null => true
  | _ => false

/-- Payloads that are NOT non-null objects for the `typeof` test: strings,
numbers, booleans and `null`. -/
def isPrimitive : JSValue → Bool
  | .str _ => true
  | .num _ => true
  | .bool _ => true
  | .null => true
  | _ => false

/-- `field in payload` for the payload shapes reachable here (own
properties only, see `JSValue`). -/
def hasField (v : JSValue) (f : String) : Bool :=
  match v with
  | .obj kvs => kvs.any (fun kv => kv.1 == f)
  | .arr xs =>
    f == "length" ||
      (match f.toNat? with
        | some i => decide (i < xs.length) && (Nat.repr i == f)
        | none => false)
  | _ => false

/-- `PaymentMessage` (`core/types.ts`). -/
structure PaymentMessage where
  type : String
  payload : JSValue
  timestamp : Nat
  messageId : String

/-- `MessageSchema`: `requiredFields := none` models an absent field; an
empty `some []` is a truthy empty array in the source and enters the check
loop vacuously. -/
structure MessageSchema where
  type : String
  requiredFields : Option (List String)
  validate : Option (JSValue → Bool)

/-- `MessageProtocol.validateMessage`. The schema map is modelled as an
association list looked up by first match. The required-field loop throws
on the first missing field, but ONLY when the payload is a non-null
`typeof`-object; then the custom predicate runs, if present. -/
def validateMessage (schemas : List MessageSchema) (m : PaymentMessage) :
    Except ErrorType Unit :=
  match schemas.find? (fun sch => sch.type == m.type) with
  | none => .ok ()
  | some schema =>
    let requiredCheck : Except ErrorType Unit :=
      match schema.requiredFields with
      | some fields =>
        if typeofIsObject m.payload && !isNull m.payload then
          match fields.find? (fun f => !hasField m.payload f) with
          | some _ => .error .messageSendFailed
          | none => .ok ()
        else .ok ()
      | none => .ok ()
    match requiredCheck with
    | .error e => .error e
    | .ok _ =>
      match schema.validate with
      | some p => if !p m.payload then .error .messageSendFailed else .ok ()
      | none => .ok ()

/-- `MessageProtocol.createMessage`: stamps the message and validates it
(the `Date.now()` timestamp and generated id are passed in). -/
def createMessage (schemas : List MessageSchema) (type : String) (payload : JSValue)
    (now : Nat) (freshId : String) : Except ErrorType PaymentMessage :=
  let m : PaymentMessage :=
    { type := type, payload := payload, timestamp := now, messageId := freshId }
  match validateMessage schemas m with
  | .error e => .error e
  | .ok _ => .ok m

/-- A retry-queue entry (`QueuedMessage`). -/
structure QueuedMessage where
  message : PaymentMessage
  timestamp : Nat
  retries : Nat

/-- `MessageProtocol.addToHistory`: push, then trim with
`slice(-maxHistorySize)` when over the cap. ECMAScript quirk modelled
faithfully: when `maxHistorySize = 0`, the argument `-0` coerces to `+0`,
`slice(0)` returns the WHOLE array, and nothing is trimmed. -/
def addToHistory (hist : List PaymentMessage) (maxHistorySize : Nat)
    (m : PaymentMessage) : List PaymentMessage :=
  let h := hist ++ [m]
  if maxHistorySize < h.length then
    if maxHistorySize = 0 then h else h.drop (h.length - maxHistorySize)
  else h

/-- The `MessageProtocol` fields the verified operations touch. Handlers
are abstracted to a per-type count: handler callbacks run under
`Promise.allSettled`, their failures are collected without aborting the
others, and they cannot modify the protocol state. -/
structure MessageProtocolState where
  schemas : List MessageSchema
  handlerCounts : List (String × Nat)
  messageHistory : List PaymentMessage
  messageQueue : List QueuedMessage
  maxHistorySize : Nat
  maxRetries : Nat

/-- `MessageProtocol.processMessage` as a state transition: validate (a
failure is rethrown as a wrapped error and nothing is appended), append to
the bounded history, then dispatch to the exact-type and wildcard handlers.
With zero registered handlers the source logs a warning and returns — the
history append has already happened at that point. -/
def processMessage (s : MessageProtocolState) (m : PaymentMessage) :
    Except ErrorType MessageProtocolState :=
  match validateMessage s.schemas m with
  | .error _ => .error .messageSendFailed
  | .ok _ =>
    .ok { s with messageHistory := addToHistory s.messageHistory s.maxHistorySize m }

/-- One pass of `MessageProtocol.retryQueuedMessages` over the snapshot of
the queue: the source empties the queue, walks the snapshot in order,
skips (drops) entries whose `retries` already reached `maxRetries`, calls
`sendFn` on the rest, and pushes each failed entry back with `retries + 1`.
Returns the rebuilt queue, the messages actually handed to `sendFn` in call
order, and the dropped entries. -/
def retryPass (maxRetries : Nat) (send : PaymentMessage → Bool) :
    List QueuedMessage → List QueuedMessage × List PaymentMessage × List QueuedMessage
  | [] => ([], [], [])
  | q :: rest =>
    let r := retryPass maxRetries send rest
    if maxRetries ≤ q.retries then (r.1, r.2.1, q :: r.2.2)
    else if send q.message then (r.1, q.message :: r.2.1, r.2.2)
    else ({ q with retries := q.retries + 1 } :: r.1, q.message :: r.2.1, r.2.2)

/-- `MessageProtocol.retryQueuedMessages` as a state transition. -/
def retryQueuedMessages (s : MessageProtocolState) (send : PaymentMessage → Bool) :
    MessageProtocolState :=
  { s with messageQueue := (retryPass s.maxRetries send s.messageQueue).1 }

/-- Iterated retry rounds with an always-failing `sendFn`, starting from a
single queued entry: returns the queue after `n` rounds together with the
cumulative number of send attempts made. -/
def failingRounds (maxRetries : Nat) (e : QueuedMessage) : Nat → List QueuedMessage × Nat
  | 0 => ([e], 0)
  | n + 1 =>
    let p := failingRounds maxRetries e n
    let r := retryPass maxRetries (fun _ => false) p.1
    (r.1, p.2 + r.2.1.length)

/-! Concrete values used by counterexamples and witnesses. -/

/-- A token meeting every validity condition of claim C1 (offer present and
non-empty, metadata with nonzero timestamp and connection id, all
variable-length fields within their prefixes) whose offer type tag is not
`offer`. -/
def c1Tok : BootstrapToken :=
  { offer := { type := "answer", sdp := [118, 61, 48] }
    iceCandidates := []
    metadata := { timestamp := 5, connectionId := [99], trickleIce := false } }

/-- A round-trip witness token: trickle flag set, two candidates (one with
empty fields and the maximum m-line index). -/
def w1Tok : BootstrapToken :=
  { offer := { type := "offer", sdp := [118, 61, 48] }
    iceCandidates :=
      [ { candidate := [99, 97], sdpMid := [48], sdpMLineIndex := 0 },
        { candidate := [], sdpMid := [], sdpMLineIndex := 65535 } ]
    metadata := { timestamp := 1700000000000, connectionId := [97, 98, 99], trickleIce := true } }

/-- A token whose SDP is one byte past the 2-byte length-prefix capacity. -/
def c2Tok : BootstrapToken :=
  { offer := { type := "offer", sdp := List.replicate 65536 97 }
    iceCandidates := []
    metadata := { timestamp := 1, connectionId := [], trickleIce := false } }

/-- A byte sequence declaring a 5-byte SDP but providing only 2 bytes, with
nothing after it. -/
def c3Bytes : List Nat :=
  [1, 0, 0, 0, 0, 0, 0, 0, 0, 0, 0, 0, 5, 97, 98]

/-- A responder-role session that is already connected and has already
applied one remote description. -/
def c4Sess : WebRTCConn :=
  { state := ConnectionState.connected
    role := some ConnectionRole.answerer
    peerConnection := some { remoteDescriptions := [{ type := "answer", sdp := "a0" }], addedCandidates := [] }
    dataChannel := some true
    eventListeners := []
    iceCandidatesBuffer := []
    pendingIceCandidates := []
    trickleIceEnabled := true }

/-- The duplicate answer delivered to `c4Sess`. -/
def c4Ans : SessionDesc :=
  { type := "answer", sdp := "a0" }

/-- An initiator session that is already closed (hence far from
`AwaitingAnswer`) but still holds a peer connection. -/
def c5Sess : WebRTCConn :=
  { state := ConnectionState.closed
    role := some ConnectionRole.offerer
    peerConnection := some ({ remoteDescriptions := [], addedCandidates := [] })
    dataChannel := none
    eventListeners := []
    iceCandidatesBuffer := []
    pendingIceCandidates := []
    trickleIceEnabled := false }

/-- The answer fed to `c5Sess`. -/
def c5Ans : SessionDesc :=
  { type := "answer", sdp := "a1" }

/-- A trickle-mode session holding one pending (not yet relayed) local
candidate when it is closed. -/
def c9Sess : WebRTCConn :=
  { state := ConnectionState.connected
    role := some ConnectionRole.offerer
    peerConnection := some ({ remoteDescriptions := [], addedCandidates := [] })
    dataChannel := some true
    eventListeners := [0]
    iceCandidatesBuffer := [{ candidate := "c0", sdpMid := "0", sdpMLineIndex := 0 }]
    pendingIceCandidates := [{ candidate := "c1", sdpMid := "0", sdpMLineIndex := 0 }]
    trickleIceEnabled := true }

/-- A protocol state configured with history cap 0. -/
def c7S : MessageProtocolState :=
  { schemas := []
    handlerCounts := []
    messageHistory := []
    messageQueue := []
    maxHistorySize := 0
    maxRetries := 3 }

/-- A plain valid message (no schema registered for its type). -/
def c7M : PaymentMessage :=
  { type := "ping", payload := JSValue.null, timestamp := 1, messageId := "m1" }

/-- A protocol state for the history-bound witness: cap 2, history full. -/
def c7W : MessageProtocolState :=
  { schemas := []
    handlerCounts := []
    messageHistory :=
      [ { type := "a", payload := JSValue.null, timestamp := 0, messageId := "m0" },
        { type := "b", payload := JSValue.null, timestamp := 0, messageId := "m1" } ]
    messageQueue := []
    maxHistorySize := 2
    maxRetries := 3 }

/-- A fresh queue entry for the retry-count witness. -/
def c8E : QueuedMessage :=
  { message := { type := "payment_request", payload := JSValue.null, timestamp := 0, messageId := "q0" }
    timestamp := 0
    retries := 0 }

/-- The `payment_request` schema from `registerCommonSchemas`: three
required fields, no custom predicate. -/
def c10Schemas : List MessageSchema :=
  [ { type := "payment_request"
      requiredFields := some ["amount", "currency", "recipient"]
      validate := none } ]

/-- A `payment_request` message whose payload is a bare string. -/
def c10M : PaymentMessage :=
  { type := "payment_request", payload := JSValue.str "pay me", timestamp := 2, messageId := "m9" }

/-! Helper lemmas for the codec proofs. -/

theorem u16_of_be16 (bs rest : List Nat) (a x : Nat) (h : bs.drop a = be16 x ++ rest)
    (hx : x < 65536) : getU16 bs (some a) = .ok x := by
  simp only [getU16, h, be16, List.cons_append]
  congr 1
  omega

theorem u32_at (bs rest : List Nat) (a x : Nat) (h : bs.drop a = be32 x ++ rest) :
    getU32 bs a = .ok (x % 2 ^ 32) := by
  simp only [getU32, h, be32, List.cons_append]
  congr 1
  omega

theorem idx_cons (bs rest : List Nat) (a x : Nat) (h : bs.drop a = x :: rest) :
    idxAt bs (some a) = some x := by
  simp [idxAt, h]

theorem slice_exact (bs pre rest : List Nat) (a : Nat) (h : bs.drop a = pre ++ rest) :
    sliceAt bs (some a) (some pre.length) = pre := by
  simp [sliceAt, h, List.take_left]

theorem drop_shift (bs : List Nat) (a k : Nat) (r : List Nat) (h : bs.drop a = r) :
    bs.drop (a + k) = r.drop k := by
  rw [← List.drop_drop, h]

theorem decodeCands_encoded (cands : List IceCandidateInit) :
    ∀ (bs : List Nat) (a : Nat),
    bs.drop a = (cands.map encCandidate).flatten →
    (∀ c ∈ cands, c.candidate.length < 65536 ∧ c.sdpMid.length < 256 ∧ c.sdpMLineIndex < 65536) →
    decodeCands bs cands.length (some a) = .ok cands := by
  induction cands with
  | nil => intro bs a h hb; simp [decodeCands]
  | cons c cs ih =>
    intro bs a h hb
    obtain ⟨hc1, hc2, hc3⟩ := hb c (by simp)
    have hbs : bs.drop a = be16 c.candidate.length ++ (c.candidate
        ++ ([c.sdpMid.length % 256] ++ (c.sdpMid ++ (be16 c.sdpMLineIndex
        ++ (cs.map encCandidate).flatten)))) := by
      simpa [encCandidate, List.append_assoc] using h
    have h1 := u16_of_be16 bs _ a c.candidate.length hbs hc1
    have hd2 : bs.drop (a + 2) = c.candidate ++ ([c.sdpMid.length % 256]
        ++ (c.sdpMid ++ (be16 c.sdpMLineIndex ++ (cs.map encCandidate).flatten))) := by
      have := drop_shift bs a 2 _ hbs
      simpa [be16] using this
    have h2 : sliceAt bs (some (a + 2)) (some c.candidate.length) = c.candidate :=
      slice_exact bs _ _ _ hd2
    have hd3 : bs.drop (a + 2 + c.candidate.length) = [c.sdpMid.length % 256]
        ++ (c.sdpMid ++ (be16 c.sdpMLineIndex ++ (cs.map encCandidate).flatten)) := by
      have := drop_shift bs (a + 2) c.candidate.length _ hd2
      simpa [List.drop_left] using this
    have h3 : idxAt bs (some (a + 2 + c.candidate.length)) = some c.sdpMid.length := by
      have := idx_cons bs _ (a + 2 + c.candidate.length) (c.sdpMid.length % 256)
        (by simpa using hd3)
      simpa [Nat.mod_eq_of_lt hc2] using this
    have hd4 : bs.drop (a + 2 + c.candidate.length + 1) = c.sdpMid
        ++ (be16 c.sdpMLineIndex ++ (cs.map encCandidate).flatten) := by
      have := drop_shift bs (a + 2 + c.candidate.length) 1 _ hd3
      simpa using this
    have h4 : sliceAt bs (some (a + 2 + c.candidate.length + 1)) (some c.sdpMid.length) =
        c.sdpMid := slice_exact bs _ _ _ hd4
    have hd5 : bs.drop (a + 2 + c.candidate.length + 1 + c.sdpMid.length) =
        be16 c.sdpMLineIndex ++ (cs.map encCandidate).flatten := by
      have := drop_shift bs (a + 2 + c.candidate.length + 1) c.sdpMid.length _ hd4
      simpa [List.drop_left] using this
    have h5 := u16_of_be16 bs _ _ c.sdpMLineIndex hd5 hc3
    have hd6 : bs.drop (a + 2 + c.candidate.length + 1 + c.sdpMid.length + 2) =
        (cs.map encCandidate).flatten := by
      have := drop_shift bs (a + 2 + c.candidate.length + 1 + c.sdpMid.length) 2 _ hd5
      simpa [be16] using this
    have h6 := ih bs _ hd6 (fun x hx => hb x (by simp [hx]))
    simp only [List.length_cons, decodeCands, h1, bind, Except.bind, addOff]
    simp only [h2, h3, h4, h5, h6, bind, Except.bind]
    rfl

/-- Claim C1 (corrected): the codec round-trips field-for-field on every
token whose fields fit their wire slots AND whose offer type tag is the
literal `offer` — the tag is never serialized and decode always
reconstructs `offer`, so it is the one field not preserved in general (see
the counterexample). Hypotheses: nonzero timestamp below 2^64, connection
id below 256 bytes, SDP below 65536 bytes, fewer than 256 candidates, and
each candidate with candidate string below 65536 bytes, sdpMid below 256
bytes and m-line index below 65536. Includes zero-candidate tokens and the
maximum-length boundaries. -/
theorem claim1_roundtrip (now : Nat) (t : BootstrapToken)
    (hty : t.offer.type = "offer")
    (hts0 : t.metadata.timestamp ≠ 0)
    (hts : t.metadata.timestamp < 2 ^ 64)
    (hcid : t.metadata.connectionId.length < 256)
    (hsdp : t.offer.sdp.length < 65536)
    (hcnt : t.iceCandidates.length < 256)
    (hc : ∀ c ∈ t.iceCandidates,
      c.candidate.length < 65536 ∧ c.sdpMid.length < 256 ∧ c.sdpMLineIndex < 65536) :
    decompressToken (compressToken now t) = .ok t := by
  set bs := compressToken now t with hbs
  set ts := t.metadata.timestamp with hts2
  set f : Nat := if t.metadata.trickleIce then 1 else 0 with hf
  have hbs0 : bs.drop 0 = [1, f] ++ (be64 ts ++ ([t.metadata.connectionId.length % 256]
      ++ (t.metadata.connectionId ++ (be16 t.offer.sdp.length ++ (t.offer.sdp
      ++ ([t.iceCandidates.length % 256] ++ (t.iceCandidates.map encCandidate).flatten)))))) := by
    simp [hbs, compressToken, if_neg hts0, List.append_assoc, ← hf]
  have hver : (bs.drop 0).head? = some 1 := by simp [hbs0]
  have hflags : (bs.drop 1).head? = some f := by
    have := drop_shift bs 0 1 _ hbs0
    simp at this
    simp [this]
  have hd2 : bs.drop 2 = be32 (ts / 2 ^ 32) ++ (be32 ts ++ ([t.metadata.connectionId.length % 256]
      ++ (t.metadata.connectionId ++ (be16 t.offer.sdp.length ++ (t.offer.sdp
      ++ ([t.iceCandidates.length % 256] ++ (t.iceCandidates.map encCandidate).flatten)))))) := by
    have := drop_shift bs 0 2 _ hbs0
    simpa [be64, List.append_assoc] using this
  have hhi : getU32 bs 2 = .ok (ts / 2 ^ 32) := by
    have := u32_at bs _ 2 (ts / 2 ^ 32) hd2
    rwa [Nat.mod_eq_of_lt (by omega)] at this
  have hd6 : bs.drop 6 = be32 ts ++ ([t.metadata.connectionId.length % 256]
      ++ (t.metadata.connectionId ++ (be16 t.offer.sdp.length ++ (t.offer.sdp
      ++ ([t.iceCandidates.length % 256] ++ (t.iceCandidates.map encCandidate).flatten))))) := by
    have := drop_shift bs 2 4 _ hd2
    simpa [be32] using this
  have hlo : getU32 bs 6 = .ok (ts % 2 ^ 32) := u32_at bs _ 6 ts hd6
  have hd10 : bs.drop 10 = [t.metadata.connectionId.length % 256]
      ++ (t.metadata.connectionId ++ (be16 t.offer.sdp.length ++ (t.offer.sdp
      ++ ([t.iceCandidates.length % 256] ++ (t.iceCandidates.map encCandidate).flatten)))) := by
    have := drop_shift bs 6 4 _ hd6
    simpa [be32] using this
  have hconnlen : idxAt bs (some 10) = some t.metadata.connectionId.length := by
    have := idx_cons bs _ 10 (t.metadata.connectionId.length % 256) (by simpa using hd10)
    simpa [Nat.mod_eq_of_lt hcid] using this
  have hd11 : bs.drop 11 = t.metadata.connectionId ++ (be16 t.offer.sdp.length ++ (t.offer.sdp
      ++ ([t.iceCandidates.length % 256] ++ (t.iceCandidates.map encCandidate).flatten))) := by
    have := drop_shift bs 10 1 _ hd10
    simpa using this
  have hconn : sliceAt bs (some 11) (some t.metadata.connectionId.length) =
      t.metadata.connectionId := slice_exact bs _ _ _ hd11
  have hd11L : bs.drop (11 + t.metadata.connectionId.length) =
      be16 t.offer.sdp.length ++ (t.offer.sdp
      ++ ([t.iceCandidates.length % 256] ++ (t.iceCandidates.map encCandidate).flatten)) := by
    have := drop_shift bs 11 t.metadata.connectionId.length _ hd11
    simpa [List.drop_left] using this
  have hsdplen : getU16 bs (some (11 + t.metadata.connectionId.length)) =
      .ok t.offer.sdp.length := u16_of_be16 bs _ _ _ hd11L hsdp
  have hd13L : bs.drop (11 + t.metadata.connectionId.length + 2) = t.offer.sdp
      ++ ([t.iceCandidates.length % 256] ++ (t.iceCandidates.map encCandidate).flatten) := by
    have := drop_shift bs (11 + t.metadata.connectionId.length) 2 _ hd11L
    simpa [be16] using this
  have hsdpv : sliceAt bs (some (11 + t.metadata.connectionId.length + 2))
      (some t.offer.sdp.length) = t.offer.sdp := slice_exact bs _ _ _ hd13L
  have hd14L : bs.drop (11 + t.metadata.connectionId.length + 2 + t.offer.sdp.length) =
      [t.iceCandidates.length % 256] ++ (t.iceCandidates.map encCandidate).flatten := by
    have := drop_shift bs (11 + t.metadata.connectionId.length + 2) t.offer.sdp.length _ hd13L
    simpa [List.drop_left] using this
  have hcount : idxAt bs (some (11 + t.metadata.connectionId.length + 2 + t.offer.sdp.length)) =
      some t.iceCandidates.length := by
    have := idx_cons bs _ _ (t.iceCandidates.length % 256) (by simpa using hd14L)
    simpa [Nat.mod_eq_of_lt hcnt] using this
  have hd15L : bs.drop (11 + t.metadata.connectionId.length + 2 + t.offer.sdp.length + 1) =
      (t.iceCandidates.map encCandidate).flatten := by
    have := drop_shift bs (11 + t.metadata.connectionId.length + 2 + t.offer.sdp.length) 1 _ hd14L
    simpa using this
  have hcands := decodeCands_encoded t.iceCandidates bs _ hd15L hc
  simp only [decompressToken, hver, ne_eq, reduceCtorEq, not_false_eq_true, if_neg,
    reduceIte, hflags, hhi, hlo, hconnlen, hconn, hsdplen, hsdpv, hcount, hcands,
    bind, Except.bind, addOff, Option.getD_some, hd15L]
  have hts64 : ts / 2 ^ 32 * 2 ^ 32 + ts % 2 ^ 32 = ts := by omega
  have htr : decide ((if t.metadata.trickleIce then 1 else 0) % 2 = 1) = t.metadata.trickleIce := by
    cases t.metadata.trickleIce <;> simp
  cases t with
  | mk offer cands md =>
    cases offer with
    | mk oty osdp =>
      cases md with
      | mk mts mcid mtr =>
        simp only [pure, Except.pure, Except.ok.injEq]
        simp at hty
        simp [hty, hts64, ← hf, htr]
        have htsm : ts = mts := by simp [hts2]
        omega

/-- Witness for claim C1 at a concrete trickle token with two candidates
(one of them with empty fields and the maximum m-line index). -/
theorem claim1_roundtrip_witness :
    decompressToken (compressToken 5 w1Tok) = .ok w1Tok :=
  claim1_roundtrip 5 w1Tok rfl (by decide) (by decide) (by decide) (by decide)
    (by decide) (by decide)

/-- Counterexample for claim C1 as frozen: a token satisfying every
validity condition of the claim, but with offer type tag `answer`, decodes
back with type tag `offer` — the tag is not serialized, so it is not
preserved. -/
theorem claim1_type_counterexample :
    decompressToken (compressToken 7 c1Tok) =
      .ok { offer := { type := "offer", sdp := [118, 61, 48] }
            iceCandidates := []
            metadata := { timestamp := 5, connectionId := [99], trickleIce := false } } ∧
    ({ offer := { type := "offer", sdp := [118, 61, 48] }
       iceCandidates := []
       metadata := { timestamp := 5, connectionId := [99], trickleIce := false } } :
        BootstrapToken) ≠ c1Tok :=
  ⟨rfl, by decide⟩

theorem getU32_ok (bs : List Nat) (n : Nat) (h : n + 4 ≤ bs.length) :
    ∃ v, getU32 bs n = .ok v := by
  have hlen : (List.drop n bs).length = bs.length - n := List.length_drop n bs
  rcases hbs : bs.drop n with _ | ⟨a, _ | ⟨b, _ | ⟨c, _ | ⟨d, r⟩⟩⟩⟩
  · exfalso; rw [hbs] at hlen; simp at hlen; omega
  · exfalso; rw [hbs] at hlen; simp at hlen; omega
  · exfalso; rw [hbs] at hlen; simp at hlen; omega
  · exfalso; rw [hbs] at hlen; simp at hlen; omega
  · exact ⟨2 ^ 24 * a + 2 ^ 16 * b + 256 * c + d, by simp [getU32, hbs]⟩

theorem getU16_err (bs : List Nat) (n : Nat) (h : bs.length < n + 2) :
    getU16 bs (some n) = .error () := by
  have hlen : (List.drop n bs).length = bs.length - n := List.length_drop n bs
  rcases hbs : bs.drop n with _ | ⟨a, _ | ⟨b, r⟩⟩
  · simp [getU16, hbs]
  · simp [getU16, hbs]
  · exfalso; rw [hbs] at hlen; simp at hlen; omega

/-- Claim C2 (corrected): encode never raises on oversize fields. For every
token, `compressToken` succeeds and writes the 2-byte SDP length prefix as
the byte length modulo 2^16 (the `DataView.setUint16` wrap), immediately
followed by ALL of the SDP bytes, and the total output length counts every
field byte — so an oversize SDP yields length-wrapped output rather than an
error or truncation. -/
theorem claim2_encode_wraps (now : Nat) (t : BootstrapToken) :
    (((compressToken now t).drop (11 + t.metadata.connectionId.length)).head? =
        some (t.offer.sdp.length / 256 % 256)) ∧
    (((compressToken now t).drop (12 + t.metadata.connectionId.length)).head? =
        some (t.offer.sdp.length % 256)) ∧
    ((compressToken now t).length =
      14 + t.metadata.connectionId.length + t.offer.sdp.length +
        ((t.iceCandidates.map encCandidate).flatten).length) := by
  set bs := compressToken now t with hbs
  set ts := if t.metadata.timestamp = 0 then now else t.metadata.timestamp with hts2
  set f : Nat := if t.metadata.trickleIce then 1 else 0 with hf
  have hbs0 : bs.drop 0 = [1, f] ++ (be64 ts ++ ([t.metadata.connectionId.length % 256]
      ++ (t.metadata.connectionId ++ (be16 t.offer.sdp.length ++ (t.offer.sdp
      ++ ([t.iceCandidates.length % 256] ++ (t.iceCandidates.map encCandidate).flatten)))))) := by
    simp [hbs, compressToken, List.append_assoc, ← hf, ← hts2]
  have hd10 : bs.drop 10 = [t.metadata.connectionId.length % 256]
      ++ (t.metadata.connectionId ++ (be16 t.offer.sdp.length ++ (t.offer.sdp
      ++ ([t.iceCandidates.length % 256] ++ (t.iceCandidates.map encCandidate).flatten)))) := by
    have := drop_shift bs 0 10 _ hbs0
    simpa [be64, be32] using this
  have hd11 : bs.drop 11 = t.metadata.connectionId ++ (be16 t.offer.sdp.length ++ (t.offer.sdp
      ++ ([t.iceCandidates.length % 256] ++ (t.iceCandidates.map encCandidate).flatten))) := by
    have := drop_shift bs 10 1 _ hd10
    simpa using this
  have hd11L : bs.drop (11 + t.metadata.connectionId.length) =
      be16 t.offer.sdp.length ++ (t.offer.sdp
      ++ ([t.iceCandidates.length % 256] ++ (t.iceCandidates.map encCandidate).flatten)) := by
    have := drop_shift bs 11 t.metadata.connectionId.length _ hd11
    simpa [List.drop_left] using this
  have hd12L : bs.drop (12 + t.metadata.connectionId.length) =
      [t.offer.sdp.length % 256] ++ (t.offer.sdp
      ++ ([t.iceCandidates.length % 256] ++ (t.iceCandidates.map encCandidate).flatten)) := by
    have h1 := drop_shift bs (11 + t.metadata.connectionId.length) 1 _ hd11L
    have h2 : 11 + t.metadata.connectionId.length + 1 = 12 + t.metadata.connectionId.length := by
      omega
    rw [h2] at h1
    simpa [be16] using h1
  refine ⟨?_, ?_, ?_⟩
  · simp [hd11L, be16]
  · simp [hd12L]
  · simp [hbs, compressToken, be64, be32, be16, List.length_append]
    omega

/-- Counterexample for claim C2 as frozen: a token whose SDP is 65536 bytes
encodes without any error into 65550 bytes whose SDP length prefix reads 0
(65536 mod 2^16), and the result no longer decodes back to the token. -/
theorem claim2_oversize_counterexample :
    ((compressToken 1 c2Tok).length = 65550) ∧
    (((compressToken 1 c2Tok).drop 11).head? = some 0) ∧
    (((compressToken 1 c2Tok).drop 12).head? = some 0) ∧
    decompressToken (compressToken 1 c2Tok) ≠ .ok c2Tok := by
  obtain ⟨R, hR⟩ : ∃ R : List Nat, R = List.replicate 65536 97 := ⟨_, rfl⟩
  have hRlen : R.length = 65536 := by rw [hR]; exact List.length_replicate 65536 97
  have hc2 : c2Tok = { offer := { type := "offer", sdp := R }, iceCandidates := [], metadata := { timestamp := 1, connectionId := [], trickleIce := false } } := by
    rw [hR]; rfl
  rw [hc2]
  set bs := compressToken 1 { offer := { type := "offer", sdp := R }, iceCandidates := [], metadata := { timestamp := 1, connectionId := [], trickleIce := false } } with hbs
  have hbs0 : bs.drop 0 = 1 :: 0 :: 0 :: 0 :: 0 :: 0 :: 0 :: 0 :: 0 :: 1 :: 0 :: 0 :: 0 ::
      (R ++ [0]) := by
    simp [hbs, compressToken, be64, be32, be16, hRlen]
  have hd1 : bs.drop 1 = 0 :: 0 :: 0 :: 0 :: 0 :: 0 :: 0 :: 0 :: 1 :: 0 :: 0 :: 0 :: (R ++ [0]) := by
    have := drop_shift bs 0 1 _ hbs0
    simpa using this
  have hd2 : bs.drop 2 = 0 :: 0 :: 0 :: 0 :: 0 :: 0 :: 0 :: 1 :: 0 :: 0 :: 0 :: (R ++ [0]) := by
    have := drop_shift bs 1 1 _ hd1
    simpa using this
  have hd6 : bs.drop 6 = 0 :: 0 :: 0 :: 1 :: 0 :: 0 :: 0 :: (R ++ [0]) := by
    have := drop_shift bs 2 4 _ hd2
    simpa using this
  have hd10 : bs.drop 10 = 0 :: 0 :: 0 :: (R ++ [0]) := by
    have := drop_shift bs 6 4 _ hd6
    simpa using this
  have hd11 : bs.drop 11 = 0 :: 0 :: (R ++ [0]) := by
    have := drop_shift bs 10 1 _ hd10
    simpa using this
  have hd12 : bs.drop 12 = 0 :: (R ++ [0]) := by
    have := drop_shift bs 11 1 _ hd11
    simpa using this
  have hd13 : bs.drop 13 = R ++ [0] := by
    have := drop_shift bs 12 1 _ hd12
    simpa using this
  have hver : (bs.drop 0).head? = some 1 := by simp [hbs0]
  have hflags : (bs.drop 1).head? = some 0 := by simp [hd1]
  have hhi : getU32 bs 2 = .ok 0 := by simp [getU32, hd2]
  have hlo : getU32 bs 6 = .ok 1 := by simp [getU32, hd6]
  have hconnlen : idxAt bs (some 10) = some 0 := by simp [idxAt, hd10]
  have hsdplen : getU16 bs (some 11) = .ok 0 := by simp [getU16, hd11]
  have hrep : R = 97 :: List.replicate 65535 97 := by
    rw [hR]
    have h65536 : (65536 : Nat) = 65535 + 1 := by norm_num
    rw [h65536, List.replicate_succ]
  have hcount : idxAt bs (some 13) = some 97 := by
    show (bs.drop 13).head? = some 97
    rw [hd13, hrep]
    rfl
  refine ⟨?_, ?_, ?_, ?_⟩
  · have hl := congrArg List.length hbs0
    simp [hRlen] at hl
    simpa using hl
  · simp [hd11]
  · simp [hd12]
  · intro h
    simp only [decompressToken, hver, ne_eq, Option.some.injEq, eq_self_iff_true,
      not_true, if_false, reduceCtorEq, not_false_eq_true, if_neg,
      reduceIte, hflags, hhi, hlo, hconnlen, hsdplen, hcount, bind, Except.bind, addOff,
      Option.getD_some, sliceAt, List.take_zero] at h
    rcases hcc : decodeCands bs 97 (some (13 + 1)) with e | l
    · rw [hcc] at h
      simp at h
    · rw [hcc] at h
      simp only [pure, Except.pure, Except.ok.injEq] at h
      have hsdpe : ([] : List Nat) = R := congrArg (fun tk => tk.offer.sdp) h
      have := congrArg List.length hsdpe
      rw [hRlen] at this
      simp at this

/-- Claim C3 (corrected): decode rejects every byte sequence whose version
byte is missing or differs from 0x01, and rejects a declared connection-id
length that exceeds the remaining bytes (the following fixed 2-byte read
lands out of bounds). It does NOT reject every truncation: see the
clamp counterexample for a declared SDP length past end of input. -/
theorem claim3_decode_rejects :
    (∀ bs : List Nat, bs.head? ≠ some 1 → decompressToken bs = .error ()) ∧
    (∀ (bs : List Nat) (l : Nat), idxAt bs (some 10) = some l → bs.length < 11 + l →
      decompressToken bs = .error ()) := by
  have h1 : ∀ bs : List Nat, bs.head? ≠ some 1 → decompressToken bs = .error () := by
    intro bs h
    simp only [decompressToken, List.drop_zero]
    rw [if_pos h]
  refine ⟨h1, ?_⟩
  intro bs l hidx hlen
  by_cases hv : bs.head? = some 1
  · have h11 : 11 ≤ bs.length := by
      by_contra hc
      push_neg at hc
      have hd : bs.drop 10 = [] := List.drop_eq_nil_of_le (by omega)
      simp [idxAt, hd] at hidx
    obtain ⟨v2, h2⟩ := getU32_ok bs 2 (by omega)
    obtain ⟨v6, h6⟩ := getU32_ok bs 6 (by omega)
    have h16 := getU16_err bs (11 + l) (by omega)
    simp only [decompressToken, List.drop_zero, hv, ne_eq, Option.some.injEq,
      eq_self_iff_true, not_true, if_false, h2, h6, hidx, bind, Except.bind, addOff, h16]
  · exact h1 bs hv

/-- Witness for claim C3: a wrong version byte and an over-long declared
connection-id length, both rejected on concrete inputs. -/
theorem claim3_decode_rejects_witness :
    decompressToken [2] = .error () ∧
    decompressToken [1, 0, 0, 0, 0, 0, 0, 0, 0, 0, 200] = .error () :=
  ⟨claim3_decode_rejects.1 [2] (by decide),
   claim3_decode_rejects.2 [1, 0, 0, 0, 0, 0, 0, 0, 0, 0, 200] 200 rfl (by decide)⟩

/-- Counterexample for claim C3 as frozen: `c3Bytes` declares a 5-byte SDP
but only 2 bytes remain; decode succeeds with the SDP silently clamped to
those 2 bytes (and zero candidates) instead of failing with a truncation
error — `Array.prototype.slice` clamps, and the out-of-range candidate
count read gives `undefined`, which ends the loop. -/
theorem claim3_clamp_counterexample :
    getU16 c3Bytes (some 11) = .ok 5 ∧
    c3Bytes.length = 15 ∧
    decompressToken c3Bytes =
      .ok { offer := { type := "offer", sdp := [97, 98] }
            iceCandidates := []
            metadata := { timestamp := 0, connectionId := [], trickleIce := false } } :=
  ⟨rfl, rfl, rfl⟩

theorem setState_proj (s : WebRTCConn) (ns : ConnectionState) :
    (setState s ns).1.state = ns ∧
    (setState s ns).1.role = s.role ∧
    (setState s ns).1.peerConnection = s.peerConnection ∧
    (setState s ns).1.dataChannel = s.dataChannel ∧
    (setState s ns).1.pendingIceCandidates = s.pendingIceCandidates := by
  by_cases h : s.state = ns <;> simp [setState, h]

/-- Claim C4 (corrected): `handleSignalingMessage` performs NO state or
role guard for answer envelopes. Whenever a peer connection exists — in any
state, for any role, however many answers were already applied — an answer
envelope results in one more `setRemoteDescription` call; the state-machine
fields themselves are never changed by an answer envelope, and with no peer
connection the envelope is a no-op. Duplicate suppression, where it occurs,
comes only from the external transport throwing (caught and logged). -/
theorem claim4_answer_unconditional (s : WebRTCConn) (d : SessionDesc) :
    (∀ pc, s.peerConnection = some pc →
      handleSignalingMessage s (SignalingMessage.answer d) =
        { s with peerConnection := some { pc with remoteDescriptions := pc.remoteDescriptions ++ [d] } }) ∧
    (s.peerConnection = none → handleSignalingMessage s (SignalingMessage.answer d) = s) ∧
    (handleSignalingMessage s (SignalingMessage.answer d)).state = s.state ∧
    (handleSignalingMessage s (SignalingMessage.answer d)).role = s.role := by
  refine ⟨?_, ?_, ?_, ?_⟩
  · intro pc h
    simp [handleSignalingMessage, h]
  · intro h
    simp [handleSignalingMessage, h]
  · cases hpc : s.peerConnection <;> simp [handleSignalingMessage, hpc]
  · cases hpc : s.peerConnection <;> simp [handleSignalingMessage, hpc]

/-- Witness for claim C4 on a concrete connected responder session: the
duplicate answer is applied, giving two remote-description calls. -/
theorem claim4_answer_unconditional_witness :
    ((handleSignalingMessage c4Sess (SignalingMessage.answer c4Ans)).peerConnection.map
      (fun pc => pc.remoteDescriptions.length)) = some 2 := by
  rw [(claim4_answer_unconditional c4Sess c4Ans).1
    { remoteDescriptions := [{ type := "answer", sdp := "a0" }], addedCandidates := [] } rfl]
  decide

/-- Counterexample for claim C4 as frozen: a responder-role session in the
`connected` state (hence not in `AwaitingAnswer`) receiving an answer
envelope is NOT left unchanged — the answer is applied a second time. -/
theorem claim4_duplicate_counterexample :
    c4Sess.state = ConnectionState.connected ∧
    c4Sess.role = some ConnectionRole.answerer ∧
    handleSignalingMessage c4Sess (SignalingMessage.answer c4Ans) ≠ c4Sess ∧
    ((handleSignalingMessage c4Sess (SignalingMessage.answer c4Ans)).peerConnection.map
      (fun pc => pc.remoteDescriptions.length)) = some 2 := by
  decide

/-- Claim C5 (corrected): `receiveAnswer` guards only the role and the
presence of a peer connection — both failures raise `CONNECTION_FAILED`
(there is no dedicated InvalidRoleOrState error type) before any mutation.
The session state is never inspected: called as initiator with a live peer
connection from ANY state, it applies the answer and candidates and
transitions to `connecting`. -/
theorem claim5_receive_answer_guards (s : WebRTCConn) (a : SessionDesc)
    (cs : List CandidateDesc) :
    (s.role ≠ some ConnectionRole.offerer →
      receiveAnswer s a cs = .error ErrorType.connectionFailed) ∧
    (s.role = some ConnectionRole.offerer → s.peerConnection = none →
      receiveAnswer s a cs = .error ErrorType.connectionFailed) ∧
    (∀ pc, s.role = some ConnectionRole.offerer → s.peerConnection = some pc →
      ∃ s2 evs, receiveAnswer s a cs = .ok (s2, evs) ∧
        s2.state = ConnectionState.connecting ∧
        s2.role = s.role ∧
        s2.peerConnection = some { pc with remoteDescriptions := pc.remoteDescriptions ++ [a], addedCandidates := pc.addedCandidates ++ cs } ∧
        s2.pendingIceCandidates = s.pendingIceCandidates ∧
        s2.dataChannel = s.dataChannel) := by
  refine ⟨?_, ?_, ?_⟩
  · intro h
    simp [receiveAnswer, h]
  · intro h hp
    simp [receiveAnswer, h, hp]
  · intro pc h hp
    have hra : receiveAnswer s a cs =
        .ok (setState { s with peerConnection := some { pc with remoteDescriptions := pc.remoteDescriptions ++ [a], addedCandidates := pc.addedCandidates ++ cs } } ConnectionState.connecting) := by
      simp [receiveAnswer, h, hp]
    obtain ⟨p1, p2, p3, p4, p5⟩ := setState_proj { s with peerConnection := some { pc with remoteDescriptions := pc.remoteDescriptions ++ [a], addedCandidates := pc.addedCandidates ++ cs } } ConnectionState.connecting
    exact ⟨_, _, by rw [hra], p1, p2, p3, p5, p4⟩

/-- Witness for claim C5: a responder-role session calling receiveAnswer
is rejected with `CONNECTION_FAILED`. -/
theorem claim5_receive_answer_guards_witness :
    receiveAnswer { c5Sess with role := some ConnectionRole.answerer } c5Ans [] =
      .error ErrorType.connectionFailed :=
  (claim5_receive_answer_guards { c5Sess with role := some ConnectionRole.answerer }
    c5Ans []).1 (by decide)

/-- Counterexample for claim C5 as frozen: an initiator session in the
terminal `closed` state (not `AwaitingAnswer`) calling receiveAnswer is NOT
rejected — the answer is applied and the session transitions to
`connecting`. -/
theorem claim5_state_counterexample :
    c5Sess.state = ConnectionState.closed ∧
    receiveAnswer c5Sess c5Ans [] =
      .ok ({ c5Sess with state := ConnectionState.connecting, peerConnection := some { remoteDescriptions := [c5Ans], addedCandidates := [] } },
        [{ newState := ConnectionState.connecting, listenersNotified := 0 }]) :=
  ⟨rfl, rfl⟩

/-- Claim C9 (corrected): from every state, one `close` nulls the data
channel and the transport, reaches `closed`, emits the final state-change
to the listeners still attached (none is emitted when already closed),
detaches all listeners and clears the ICE-candidate buffer — but it never
clears the pending trickle-candidate buffer; and a second close is a
no-op that emits no events. -/
theorem claim9_close (s : WebRTCConn) :
    ((close s).1.dataChannel = none) ∧
    ((close s).1.peerConnection = none) ∧
    ((close s).1.state = ConnectionState.closed) ∧
    ((close s).1.eventListeners = []) ∧
    ((close s).1.iceCandidatesBuffer = []) ∧
    ((close s).1.pendingIceCandidates = s.pendingIceCandidates) ∧
    ((close s).2 = if s.state = ConnectionState.closed then []
      else [{ newState := ConnectionState.closed,
              listenersNotified := s.eventListeners.length }]) ∧
    (close (close s).1 = ((close s).1, [])) := by
  by_cases h : s.state = ConnectionState.closed <;> simp [close, setState, h]

/-- Counterexample for claim C9 as frozen: closing a session that holds a
pending (not yet relayed) trickle candidate leaves that buffer non-empty —
`close` does not clear `pendingIceCandidates`. -/
theorem claim9_pending_counterexample :
    (close c9Sess).1.pendingIceCandidates =
      [{ candidate := "c1", sdpMid := "0", sdpMLineIndex := 0 }] ∧
    (close c9Sess).1.pendingIceCandidates ≠ [] := by
  decide

theorem joinNl_mem_len (x : List Char) : ∀ ls : List (List Char), x ∈ ls →
    x.length ≤ (joinNl ls).length := by
  intro ls
  induction ls with
  | nil => intro h; cases h
  | cons l tl ih =>
    intro h
    rcases List.mem_cons.mp h with rfl | h2
    · cases tl with
      | nil => simp [joinNl]
      | cons m ms => simp [joinNl]
    · cases tl with
      | nil => cases h2
      | cons m ms =>
        have hx := ih h2
        simp [joinNl] at hx ⊢
        omega

theorem filterSDP_ne_empty (sdp : String)
    (h : ∃ line ∈ splitNl sdp.data, line ≠ [] ∧
      (!strStartsWith line "a=max-message-size:".data &&
        !strStartsWith line "a=sctp-port:".data) = true) :
    filterSDP sdp ≠ "" := by
  obtain ⟨line, hmem, hne, hpred⟩ := h
  have hmf : line ∈ (splitNl sdp.data).filter (fun l2 =>
      !strStartsWith l2 "a=max-message-size:".data &&
        !strStartsWith l2 "a=sctp-port:".data) :=
    List.mem_filter.mpr ⟨hmem, hpred⟩
  have hlen := joinNl_mem_len line _ hmf
  intro he
  have hdata : joinNl ((splitNl sdp.data).filter (fun l2 =>
      !strStartsWith l2 "a=max-message-size:".data &&
        !strStartsWith l2 "a=sctp-port:".data)) = [] := by
    have := congrArg String.data he
    simpa [filterSDP] using this
  rw [hdata] at hlen
  simp only [joinNl, List.length_nil, Nat.le_zero] at hlen
  exact hne (List.length_eq_zero.mp hlen)

/-- Claim C6 (confirmed): every token built by `createBootstrapToken`
carries the trickle flag it was asked for, has an empty candidate list
whenever that flag is true (the trickle branch hardcodes `[]`, and the
non-trickle branch leaves the flag unset), carries the filtered transport
offer as its offer, and is returned in the `awaitingAnswer` state; the
offer is non-empty whenever the transport offer has a non-empty line that
survives the SDP filter (true of any real SDP, which starts with v=0). -/
theorem claim6_trickle_invariant (useTrickleICE : Bool) (offer : SessionDesc)
    (gathered : List CandidateDesc) (now : Nat) (connId : String) :
    ((createBootstrapToken useTrickleICE offer gathered now connId).1.trickleIce =
      useTrickleICE) ∧
    ((createBootstrapToken useTrickleICE offer gathered now connId).1.trickleIce = true →
      (createBootstrapToken useTrickleICE offer gathered now connId).1.iceCandidates = []) ∧
    ((createBootstrapToken useTrickleICE offer gathered now connId).1.offer.sdp =
      filterSDP offer.sdp) ∧
    ((createBootstrapToken useTrickleICE offer gathered now connId).2 =
      ConnectionState.awaitingAnswer) ∧
    ((∃ line ∈ splitNl offer.sdp.data, line ≠ [] ∧
        (!strStartsWith line "a=max-message-size:".data &&
          !strStartsWith line "a=sctp-port:".data) = true) →
      (createBootstrapToken useTrickleICE offer gathered now connId).1.offer.sdp ≠ "") := by
  refine ⟨?_, ?_, ?_, ?_, ?_⟩
  · cases useTrickleICE <;> simp [createBootstrapToken]
  · cases useTrickleICE <;> simp [createBootstrapToken]
  · cases useTrickleICE <;> simp [createBootstrapToken]
  · cases useTrickleICE <;> simp [createBootstrapToken]
  · intro h
    have hne := filterSDP_ne_empty offer.sdp h
    cases useTrickleICE <;> simpa [createBootstrapToken] using hne

/-- Witness for claim C6 on a concrete trickle token whose transport offer
contains a filtered line. -/
theorem claim6_trickle_invariant_witness :
    ((createBootstrapToken true { type := "offer", sdp := "v=0\na=sctp-port:5000" } []
      3 "conn1").1.iceCandidates = []) ∧
    ((createBootstrapToken true { type := "offer", sdp := "v=0\na=sctp-port:5000" } []
      3 "conn1").1.trickleIce = true) ∧
    ((createBootstrapToken true { type := "offer", sdp := "v=0\na=sctp-port:5000" } []
      3 "conn1").1.offer.sdp ≠ "") := by
  have h := claim6_trickle_invariant true { type := "offer", sdp := "v=0\na=sctp-port:5000" }
    [] 3 "conn1"
  refine ⟨h.2.1 h.1, h.1, h.2.2.2.2 ?_⟩
  exact ⟨"v=0".data, by decide, by decide, by decide⟩

/-- Claim C7 (corrected): for every valid message and every protocol state
— including states with zero registered handlers, over which the theorem
quantifies — `processMessage` appends the message to history, evicting
oldest-first, and preserves the history cap provided the cap is positive.
At cap 0 the trim is broken (see the counterexample): `slice(-0)` is
`slice(0)` and returns the whole array. -/
theorem claim7_history (s : MessageProtocolState) (m : PaymentMessage)
    (hv : validateMessage s.schemas m = .ok ())
    (hpos : 0 < s.maxHistorySize) :
    ∃ s2, processMessage s m = .ok s2 ∧
      s2.messageHistory = (s.messageHistory ++ [m]).drop
        ((s.messageHistory.length + 1) - s.maxHistorySize) ∧
      m ∈ s2.messageHistory ∧
      s2.handlerCounts = s.handlerCounts ∧
      (s.messageHistory.length ≤ s.maxHistorySize →
        s2.messageHistory.length ≤ s.maxHistorySize) := by
  have hp : processMessage s m =
      .ok { s with messageHistory := addToHistory s.messageHistory s.maxHistorySize m } := by
    simp [processMessage, hv]
  have hchar : addToHistory s.messageHistory s.maxHistorySize m =
      (s.messageHistory ++ [m]).drop ((s.messageHistory.length + 1) - s.maxHistorySize) := by
    unfold addToHistory
    by_cases hlen : s.maxHistorySize < (s.messageHistory ++ [m]).length
    · rw [if_pos hlen, if_neg (by omega)]
      congr 1
      simp [List.length_append]
    · rw [if_neg hlen]
      have h0 : (s.messageHistory.length + 1) - s.maxHistorySize = 0 := by
        simp [List.length_append] at hlen
        omega
      rw [h0, List.drop_zero]
  refine ⟨_, hp, hchar, ?_, rfl, ?_⟩
  · rw [hchar]
    rw [List.drop_append_of_le_length (by omega)]
    simp
  · intro hle
    rw [hchar]
    simp [List.length_drop, List.length_append]
    omega

/-- Witness for claim C7 at a full two-entry history with cap 2 and no
registered handlers. -/
theorem claim7_history_witness :
    ∃ s2, processMessage c7W c7M = .ok s2 ∧
      s2.messageHistory = (c7W.messageHistory ++ [c7M]).drop
        ((c7W.messageHistory.length + 1) - c7W.maxHistorySize) ∧
      c7M ∈ s2.messageHistory ∧
      s2.handlerCounts = c7W.handlerCounts ∧
      (c7W.messageHistory.length ≤ c7W.maxHistorySize →
        s2.messageHistory.length ≤ c7W.maxHistorySize) :=
  claim7_history c7W c7M rfl (by decide)

/-- Counterexample for claim C7 as frozen: with the history cap configured
to 0, processing a valid message leaves the history at length 1, exceeding
the cap — `slice(-0)` trims nothing. -/
theorem claim7_cap_counterexample :
    processMessage c7S c7M = .ok { c7S with messageHistory := [c7M] } ∧
    c7S.maxHistorySize = 0 ∧
    c7S.maxHistorySize <
      ({ c7S with messageHistory := [c7M] } : MessageProtocolState).messageHistory.length :=
  ⟨rfl, rfl, by decide⟩

theorem retryPass_char (maxR : Nat) (send : PaymentMessage → Bool) :
    ∀ q : List QueuedMessage,
    (retryPass maxR send q).1 =
      (q.filter (fun e => decide (e.retries < maxR) && !send e.message)).map
        (fun e => { e with retries := e.retries + 1 }) ∧
    (retryPass maxR send q).2.1 =
      (q.filter (fun e => decide (e.retries < maxR))).map (fun e => e.message) ∧
    (retryPass maxR send q).2.2 = q.filter (fun e => decide (maxR ≤ e.retries)) := by
  intro q
  induction q with
  | nil => simp [retryPass]
  | cons e rest ih =>
    obtain ⟨ih1, ih2, ih3⟩ := ih
    by_cases h1 : maxR ≤ e.retries
    · have h1x : ¬ e.retries < maxR := by omega
      simp [retryPass, h1, h1x, ih1, ih2, ih3]
    · have h1x : e.retries < maxR := by omega
      cases h2 : send e.message
      · simp [retryPass, h1, h1x, h2, ih1, ih2, ih3]
      · simp [retryPass, h1, h1x, h2, ih1, ih2, ih3]

/-- Claim C8 (confirmed): one retry pass drains the snapshot of the queue;
entries at or above `maxRetries` are dropped (never attempted, never
re-queued), entries below it are each attempted exactly once, and exactly
the failing attempts are re-enqueued in order with their count incremented
by one. Consequently, under an always-failing sender a fresh entry survives
exactly `maxRetries` rounds — with one attempt per round — and is dropped
at the next round, never to be attempted again. -/
theorem claim8_retry :
    (∀ (maxR : Nat) (send : PaymentMessage → Bool) (q : List QueuedMessage),
      (retryPass maxR send q).1 =
        (q.filter (fun e => decide (e.retries < maxR) && !send e.message)).map
          (fun e => { e with retries := e.retries + 1 }) ∧
      (retryPass maxR send q).2.1 =
        (q.filter (fun e => decide (e.retries < maxR))).map (fun e => e.message) ∧
      (retryPass maxR send q).2.2 = q.filter (fun e => decide (maxR ≤ e.retries))) ∧
    (∀ (maxR : Nat) (e : QueuedMessage), e.retries = 0 →
      (∀ n, n ≤ maxR → failingRounds maxR e n = ([{ e with retries := n }], n)) ∧
      (∀ n, maxR < n → failingRounds maxR e n = ([], maxR))) := by
  refine ⟨fun maxR send q => retryPass_char maxR send q, ?_⟩
  intro maxR e he
  have hA : ∀ n, n ≤ maxR → failingRounds maxR e n = ([{ e with retries := n }], n) := by
    intro n
    induction n with
    | zero =>
      intro _
      cases e with
      | mk msg ts r =>
        simp at he
        simp [failingRounds, he]
    | succ n ih =>
      intro hn
      have hq := ih (by omega)
      have hstep : retryPass maxR (fun _ => false) [{ e with retries := n }] =
          ([{ e with retries := n + 1 }], [e.message], []) := by
        have hlt : ¬ maxR ≤ n := by omega
        simp [retryPass, hlt]
      simp [failingRounds, hq, hstep]
  refine ⟨hA, ?_⟩
  intro n hn
  induction n with
  | zero => omega
  | succ n ih =>
    by_cases h : maxR < n
    · have hprev := ih h
      simp [failingRounds, hprev, retryPass]
    · have hn2 : n = maxR := by omega
      subst hn2
      have hq := hA n (Nat.le_refl n)
      have hstep : retryPass n (fun _ => false) [{ e with retries := n }] =
          ([], [], [{ e with retries := n }]) := by
        simp [retryPass]
      simp [failingRounds, hq, hstep]

/-- Witness for claim C8 at the default `maxRetries = 3`: the entry is
gone from round 4 on, after exactly 3 failed attempts. -/
theorem claim8_retry_witness :
    failingRounds 3 c8E 3 = ([{ c8E with retries := 3 }], 3) ∧
    failingRounds 3 c8E 4 = ([], 3) ∧
    failingRounds 3 c8E 9 = ([], 3) :=
  ⟨(claim8_retry.2 3 c8E rfl).1 3 (by decide),
   (claim8_retry.2 3 c8E rfl).2 4 (by decide),
   (claim8_retry.2 3 c8E rfl).2 9 (by decide)⟩

/-- Claim C10 (confirmed): when the payload is not a non-null
`typeof`-object — a string, number, boolean or null — `validateMessage`
skips the required-field check entirely, whatever `requiredFields` the
registered schema lists; only the custom predicate, if present, can still
reject. In particular `createMessage` succeeds for such payloads whenever
the found schema has no custom predicate. -/
theorem claim10_primitive_skip (schemas : List MessageSchema) (m : PaymentMessage)
    (hp : isPrimitive m.payload = true) :
    (validateMessage schemas m =
      match schemas.find? (fun sch => sch.type == m.type) with
      | none => .ok ()
      | some schema =>
        match schema.validate with
        | some p => if !p m.payload then .error ErrorType.messageSendFailed else .ok ()
        | none => .ok ()) ∧
    (∀ (sch : MessageSchema) (now : Nat) (freshId : String),
      schemas.find? (fun s2 => s2.type == m.type) = some sch → sch.validate = none →
      createMessage schemas m.type m.payload now freshId =
        .ok { type := m.type, payload := m.payload, timestamp := now, messageId := freshId }) := by
  have hguard : (typeofIsObject m.payload && !isNull m.payload) = false := by
    cases hpay : m.payload <;> simp [typeofIsObject, isNull] <;>
      simp [hpay, isPrimitive] at hp
  have hreq : ∀ o : Option (List String),
      (match o with
        | some _ => (Except.ok () : Except ErrorType Unit)
        | none => Except.ok ()) = Except.ok () := by
    intro o
    cases o <;> rfl
  have hval : ∀ (sch2 : List MessageSchema) (m2 : PaymentMessage), m2.payload = m.payload →
      validateMessage sch2 m2 =
      match sch2.find? (fun sch => sch.type == m2.type) with
      | none => .ok ()
      | some schema =>
        match schema.validate with
        | some p => if !p m.payload then .error ErrorType.messageSendFailed else .ok ()
        | none => .ok () := by
    intro sch2 m2 hpay
    unfold validateMessage
    rw [hpay]
    simp only [hguard, Bool.false_eq_true, if_false, hreq]
  refine ⟨hval schemas m rfl, ?_⟩
  intro sch now freshId hf hnone
  have hval2 : validateMessage schemas { type := m.type, payload := m.payload, timestamp := now, messageId := freshId } = .ok () := by
    rw [hval schemas { type := m.type, payload := m.payload, timestamp := now, messageId := freshId } rfl]
    simp [hf, hnone]
  simp [createMessage, hval2]

/-- Witness for claim C10: a `payment_request` with a bare-string payload
passes validation although the schema requires three fields. -/
theorem claim10_primitive_skip_witness :
    validateMessage c10Schemas c10M = .ok () ∧
    createMessage c10Schemas "payment_request" (JSValue.str "pay me") 2 "m9" =
      .ok { type := "payment_request", payload := JSValue.str "pay me", timestamp := 2, messageId := "m9" } := by
  have h := claim10_primitive_skip c10Schemas c10M rfl
  constructor
  · exact h.1.trans rfl
  · exact h.2 { type := "payment_request", requiredFields := some ["amount", "currency", "recipient"], validate := none } 2 "m9" rfl rfl

end WebRTPay
